import Mathlib

/-!
Verification of the run-configuration and post-processing layer of the
signac-driven-fbpic repository, shallowly embedded over exact rational
arithmetic.  The three source scripts are
`src/signac/src/lwfa_script.py`, `src/calder/experiment_2012/calder_experiment.py`
and `src/jupyter/extract_energy_histogram.py`.
-/

/-- Speed of light in vacuum in m/s, `scipy.constants.c` (exact SI value). -/
def c_light : ℚ := 299792458

/-! ### Constants of `lwfa_script.py` -/

/-- `Nz = 4096` (lwfa_script.py line 50). -/
def lwfa_Nz : ℚ := 4096

/-- `zmax = 30.e-6` (lwfa_script.py line 51). -/
def lwfa_zmax : ℚ := 30e-6

/-- `zmin = -70.e-6` (lwfa_script.py line 52). -/
def lwfa_zmin : ℚ := -70e-6

/-- `dt = (zmax-zmin)/Nz/c` (lwfa_script.py line 58). -/
def lwfa_dt : ℚ := (lwfa_zmax - lwfa_zmin) / lwfa_Nz / c_light

/-- `v_window = c` (lwfa_script.py line 77). -/
def lwfa_v_window : ℚ := c_light

/-- `ramp_start = 0.e-6` (lwfa_script.py line 87). -/
def lwfa_ramp_start : ℚ := 0

/-- `ramp_length = 375.e-6` (lwfa_script.py line 88). -/
def lwfa_ramp_length : ℚ := 375e-6

/-- `L_interact = 900.e-6 - (zmax - zmin)` (lwfa_script.py line 103). -/
def lwfa_L_interact : ℚ := 900e-6 - (lwfa_zmax - lwfa_zmin)

/-- `T_interact = (L_interact + (zmax-zmin)) / v_window` (lwfa_script.py line 106). -/
def lwfa_T_interact : ℚ := (lwfa_L_interact + (lwfa_zmax - lwfa_zmin)) / lwfa_v_window

/-! ### Constants of `calder_experiment.py` -/

/-- `Nz = 5000` (calder_experiment.py line 41). -/
def calder_Nz : ℚ := 5000

/-- `zmax = 20.e-6` (calder_experiment.py line 42). -/
def calder_zmax : ℚ := 20e-6

/-- `zmin = -41.11e-6` (calder_experiment.py line 43). -/
def calder_zmin : ℚ := -41.11e-6

/-- `dt = (zmax-zmin)/Nz/c` (calder_experiment.py line 49). -/
def calder_dt : ℚ := (calder_zmax - calder_zmin) / calder_Nz / c_light

/-- `z1 = 0.e-6` (calder_experiment.py line 97). -/
def calder_z1 : ℚ := 0

/-- `z2 = 65.e-6` (calder_experiment.py line 98). -/
def calder_z2 : ℚ := 65e-6

/-- `z4 = 1565.e-6` (calder_experiment.py line 100). -/
def calder_z4 : ℚ := 1565e-6

/-! ### Density profile evaluators

Both `dens_func` implementations are element-wise pure functions; we embed
the per-element computation, with the `np.where` masks as conditionals
applied in the source's order.  The radial argument `r` is accepted for
interface symmetry and unused, exactly as in the source. -/

/-- Element-wise body of `dens_func` from lwfa_script.py lines 91-99,
parameterized over the module-level globals `ramp_start` and `ramp_length`:
start from `n = 1`, apply the linear-ramp mask `z < ramp_start+ramp_length`,
then the suppression mask `z < ramp_start`. -/
def dens_func_single (ramp_start ramp_length z r : ℚ) : ℚ :=
  let n : ℚ := 1
  let n := if z < ramp_start + ramp_length then (z - ramp_start) / ramp_length else n
  let n := if z < ramp_start then 0 else n
  n

/-- `dens_func` of lwfa_script.py at the script's configured constants. -/
def lwfa_dens_func (z r : ℚ) : ℚ :=
  dens_func_single lwfa_ramp_start lwfa_ramp_length z r

/-- Element-wise body of `dens_func` from calder_experiment.py lines 102-112
as executed (the fall-segment line 108 is commented out in the source),
parameterized over the globals `z1`, `z2`, `z4`: start from `n = 1`, apply
the rising-ramp mask `z < z2`, then suppression masks `z < z1` and `z > z4`. -/
def dens_func_double (z1 z2 z4 z r : ℚ) : ℚ :=
  let n : ℚ := 1
  let n := if z < z2 then (z - z1) / (z2 - z1) else n
  let n := if z < z1 then 0 else n
  let n := if z > z4 then 0 else n
  n

/-- `dens_func` of calder_experiment.py at the script's configured constants. -/
def calder_dens_func (z r : ℚ) : ℚ :=
  dens_func_double calder_z1 calder_z2 calder_z4 z r

/-- Modelled from the spec: the full double-sided profile with the linear
fall segment.  The fall breakpoint `z3` and its mask are present in
calder_experiment.py only as commented-out lines 99 and 108
(`n = np.where( z>z3, (z4 - z)/(z4-z3), n )`); this definition restores that
mask in its source position, between the rising-ramp mask and the two
suppression masks. -/
def dens_func_full (z1 z2 z3 z4 z r : ℚ) : ℚ :=
  let n : ℚ := 1
  let n := if z < z2 then (z - z1) / (z2 - z1) else n
  let n := if z > z3 then (z4 - z) / (z4 - z3) else n
  let n := if z < z1 then 0 else n
  let n := if z > z4 then 0 else n
  n

/-! ### Step-count derivation -/

/-- Python's `int()` applied to a (real-valued) number: truncation toward
zero. -/
def pyInt (q : ℚ) : ℤ :=
  if 0 ≤ q then ⌊q⌋ else ⌈q⌉

/-- `N_step = int(T_interact/sim.dt)` (lwfa_script.py line 155), as a
function of the interaction time and the timestep. -/
def N_step_of (T dt : ℚ) : ℤ :=
  pyInt (T / dt)

/-- The concrete `N_step` of lwfa_script.py. -/
def lwfa_N_step : ℤ :=
  N_step_of lwfa_T_interact lwfa_dt

/-- Spec formula for the timestep: `dt = (zmax − zmin) / Nz / c` (spec §4.1). -/
def dt_spec (zmin zmax Nz : ℚ) : ℚ :=
  (zmax - zmin) / Nz / c_light

/-! ### Run-controller event traces

The `__main__` blocks of both scripts are straight-line code with two
conditionals (`use_restart` and `track_electrons`; `save_checkpoints`).
We embed each block as the list of engine/diagnostic calls it issues, in
source order. -/

/-- The engine and diagnostic calls a driver script can issue. -/
inductive RunEvent
  /-- `Simulation(...)` without particle parameters (lwfa_script.py line 118). -/
  | initSimulationCall
  /-- `Simulation(...)` with particle parameters and `dens_func`
  (calder_experiment.py line 123): constructs the state and loads species. -/
  | initSimulationWithSpeciesCall
  /-- `add_laser_pulse(sim, ...)` (lwfa_script.py line 128). -/
  | addLaserPulseCall
  /-- `add_laser(sim, ...)` (calder_experiment.py line 130). -/
  | addLaserCall
  /-- `sim.add_new_species(...)` (lwfa_script.py line 131): loads species. -/
  | addNewSpeciesCall
  /-- `elec.track(sim.comm)` / `sim.ptcl[0].track(sim.comm)`. -/
  | trackCall
  /-- `restart_from_checkpoint(sim)`. -/
  | restartFromCheckpointCall
  /-- `sim.set_moving_window(v=v_window)`. -/
  | setMovingWindowCall
  /-- assignment of `sim.diags` to the field/particle diagnostic list. -/
  | attachDiagnosticsCall
  /-- `set_periodic_checkpoint(sim, checkpoint_period)`. -/
  | setPeriodicCheckpointCall
  /-- `sim.comm.gather_grid(...)` loop (lwfa_script.py line 158). -/
  | gatherGridCall
  /-- `sim.step(N_step)`. -/
  | stepCall
  deriving DecidableEq

/-- Event trace of the `__main__` block of lwfa_script.py (lines 115-200),
as a function of the three scheduling flags. -/
def lwfa_main (use_restart track_electrons save_checkpoints : Bool) : List RunEvent :=
  [RunEvent.initSimulationCall, RunEvent.addLaserPulseCall, RunEvent.addNewSpeciesCall]
  ++ (if use_restart = false then
        (if track_electrons then [RunEvent.trackCall] else [])
      else
        [RunEvent.restartFromCheckpointCall])
  ++ [RunEvent.setMovingWindowCall, RunEvent.attachDiagnosticsCall]
  ++ (if save_checkpoints then [RunEvent.setPeriodicCheckpointCall] else [])
  ++ [RunEvent.gatherGridCall, RunEvent.stepCall]

/-- Event trace of the `__main__` block of calder_experiment.py
(lines 120-153), as a function of the three scheduling flags. -/
def calder_main (use_restart track_electrons save_checkpoints : Bool) : List RunEvent :=
  [RunEvent.initSimulationWithSpeciesCall, RunEvent.addLaserCall]
  ++ (if use_restart = false then
        (if track_electrons then [RunEvent.trackCall] else [])
      else
        [RunEvent.restartFromCheckpointCall])
  ++ [RunEvent.setMovingWindowCall, RunEvent.attachDiagnosticsCall]
  ++ (if save_checkpoints then [RunEvent.setPeriodicCheckpointCall] else [])
  ++ [RunEvent.stepCall]

/-- The events of a trace issued strictly before the `sim.step` call. -/
def eventsBeforeStep (tr : List RunEvent) : List RunEvent :=
  tr.takeWhile (fun ev => ev ≠ RunEvent.stepCall)

/-! ### Post-processing: staircase expansion and mode combination -/

/-- `x_axis = np.array([edges[:-1], edges[1:]]).T.flatten()`
(extract_energy_histogram.py line 49): the transpose pairs each left edge
with the following right edge, so flattening interleaves them. -/
def staircase_x (edges : List ℚ) : List ℚ :=
  (List.zipWith (fun a b => [a, b]) edges.dropLast edges.tail).flatten

/-- `y_axis = np.array([counts, counts]).T.flatten()`
(extract_energy_histogram.py line 50): each count is repeated twice. -/
def staircase_y (counts : List ℚ) : List ℚ :=
  (List.zipWith (fun a b => [a, b]) counts counts).flatten

/-- One iteration of the mode-combination loop
`Er += 2 * gathered_grids[m].Er.T.real` (lwfa_script.py line 169):
complex grid entries are pairs (re, im) and only the real part is added,
weighted by 2, element-wise. -/
def modeStep (acc : List ℚ) (g : List (ℚ × ℚ)) : List ℚ :=
  List.zipWith (fun a x => a + 2 * x.1) acc g

/-- The azimuthal-mode combination of lwfa_script.py lines 164-169:
`Er = gathered_grids[0].Er.T.real` followed by the `for m in range(1, Nm)`
loop adding `2 *` the real part of every higher mode. -/
def combineModes (grids : List (List (ℚ × ℚ))) : List ℚ :=
  match grids with
  | [] => []
  | g0 :: rest => rest.foldl modeStep (g0.map Prod.fst)

/-! ## Claims -/

/-- Claim C1, counterexample: with `use_restart = true` the species-load
call is still invoked — `sim.add_new_species` in lwfa_script.py (line 131)
and the `Simulation` constructor with particle parameters in
calder_experiment.py (line 123) are executed unconditionally, before the
restart branch.  This refutes "the species-load call is not invoked". -/
theorem C1_counterexample :
    RunEvent.addNewSpeciesCall ∈ lwfa_main true true false ∧
    RunEvent.initSimulationWithSpeciesCall ∈ calder_main true false false := by
  decide

/-- Claim C1 (amended): when restart is requested, both scripts load the
most recent checkpoint (`restart_from_checkpoint` is called) and issue no
tracking call, but the species-load call (Simulation constructor with
particle parameters / `add_new_species`) is nevertheless still invoked,
unconditionally, before the restart branch. -/
theorem C1_restart_behavior :
    ∀ tr sc : Bool,
      RunEvent.restartFromCheckpointCall ∈ lwfa_main true tr sc ∧
      RunEvent.addNewSpeciesCall ∈ lwfa_main true tr sc ∧
      RunEvent.trackCall ∉ lwfa_main true tr sc ∧
      RunEvent.restartFromCheckpointCall ∈ calder_main true tr sc ∧
      RunEvent.initSimulationWithSpeciesCall ∈ calder_main true tr sc ∧
      RunEvent.trackCall ∉ calder_main true tr sc := by
  decide

/-- Claim C2: in both scripts the timestep is derived, not free: it equals
the spec formula `(zmax - zmin) / Nz / c` at the script's grid constants,
with the exact rational values spelled out. -/
theorem C2_dt_derivation :
    lwfa_dt = dt_spec lwfa_zmin lwfa_zmax lwfa_Nz ∧
    calder_dt = dt_spec calder_zmin calder_zmax calder_Nz ∧
    lwfa_dt = 1 / 12279499079680000 ∧
    calder_dt = 6111 / 149896229000000000000 := by
  refine ⟨rfl, rfl, ?_, ?_⟩
  · norm_num [lwfa_dt, lwfa_zmax, lwfa_zmin, lwfa_Nz, c_light]
  · norm_num [calder_dt, calder_zmax, calder_zmin, calder_Nz, c_light]

/-- Claim C3: the step count in interaction-length mode is exact integer
truncation: `int(T/dt)` equals `⌊T / dt⌋` whenever `T ≥ 0` and `dt > 0`;
in particular `T = 1000.9 dt` yields exactly `1000` steps; and the concrete
`N_step` of lwfa_script.py is `⌊T_interact / dt⌋ = 36864`. -/
theorem C3_N_step_truncation :
    (∀ T dt : ℚ, 0 ≤ T → 0 < dt → N_step_of T dt = ⌊T / dt⌋) ∧
    (∀ dt : ℚ, 0 < dt → N_step_of (1000.9 * dt) dt = 1000) ∧
    lwfa_N_step = ⌊lwfa_T_interact / lwfa_dt⌋ ∧
    lwfa_N_step = 36864 := by
  have hfloor : ∀ T dt : ℚ, 0 ≤ T → 0 < dt → N_step_of T dt = ⌊T / dt⌋ := by
    intro T dt hT hdt
    simp only [N_step_of, pyInt]
    rw [if_pos (div_nonneg hT hdt.le)]
  refine ⟨hfloor, ?_, ?_, ?_⟩
  · intro dt hdt
    have h : (1000.9 : ℚ) * dt / dt = 1000.9 :=
      mul_div_cancel_right₀ _ (ne_of_gt hdt)
    simp only [N_step_of, h, pyInt]
    norm_num
  · have hT : (0 : ℚ) ≤ lwfa_T_interact := by
      norm_num [lwfa_T_interact, lwfa_L_interact, lwfa_zmax, lwfa_zmin, lwfa_v_window, c_light]
    have hdt : (0 : ℚ) < lwfa_dt := by
      norm_num [lwfa_dt, lwfa_zmax, lwfa_zmin, lwfa_Nz, c_light]
    exact hfloor _ _ hT hdt
  · norm_num [lwfa_N_step, N_step_of, pyInt, lwfa_T_interact, lwfa_L_interact,
      lwfa_dt, lwfa_zmax, lwfa_zmin, lwfa_Nz, lwfa_v_window, c_light]

/-- Witness for C3 at concrete inputs. -/
theorem C3_witness :
    N_step_of 3 2 = ⌊(3 : ℚ) / 2⌋ ∧ N_step_of (1000.9 * 2) 2 = 1000 :=
  ⟨C3_N_step_truncation.1 3 2 (by norm_num) (by norm_num),
   C3_N_step_truncation.2.1 2 (by norm_num)⟩

/-- Claim C8: particle-identity tracking is enabled only on fresh runs.
With `track_electrons = true` and `use_restart = false` both scripts issue
the `track` call before `sim.step`; with `use_restart = true` no tracking
call is ever issued, regardless of `track_electrons`. -/
theorem C8_tracking_fresh_only :
    ∀ sc : Bool,
      RunEvent.trackCall ∈ eventsBeforeStep (lwfa_main false true sc) ∧
      RunEvent.trackCall ∈ eventsBeforeStep (calder_main false true sc) ∧
      (∀ tr : Bool, RunEvent.trackCall ∉ lwfa_main true tr sc ∧
        RunEvent.trackCall ∉ calder_main true tr sc) := by
  decide


/-! ### General lemmas about the density evaluators -/

/-- Inside the closed ramp interval the single-sided evaluator is exactly
the linear interpolation (at the upper endpoint the plateau branch agrees
with the interpolation value 1). -/
theorem dens_single_interp (s L z r : ℚ) (hL : 0 < L) (h1 : s ≤ z) (h2 : z ≤ s + L) :
    dens_func_single s L z r = (z - s) / L := by
  simp only [dens_func_single]
  split_ifs with hA hB
  · linarith
  · rfl
  · have hz : z = s + L := le_antisymm h2 (not_lt.mp hB)
    subst hz
    rw [add_sub_cancel_left]
    exact (div_self (ne_of_gt hL)).symm

/-- Inside the closed rising-ramp interval the double-sided evaluator is
exactly the linear interpolation. -/
theorem dens_double_interp (z1 z2 z4 z r : ℚ) (h12 : z1 < z2) (h24 : z2 ≤ z4)
    (h1 : z1 ≤ z) (h2 : z ≤ z2) :
    dens_func_double z1 z2 z4 z r = (z - z1) / (z2 - z1) := by
  simp only [dens_func_double]
  split_ifs with hA hB hC
  · linarith
  · linarith
  · rfl
  · have hz : z = z2 := le_antisymm h2 (not_lt.mp hC)
    subst hz
    exact (div_self (ne_of_gt (by linarith))).symm

/-- The single-sided evaluator never leaves `[0, 1]`, for any parameters. -/
theorem dens_single_range (s L z r : ℚ) :
    0 ≤ dens_func_single s L z r ∧ dens_func_single s L z r ≤ 1 := by
  simp only [dens_func_single]
  split_ifs with hA hB
  · norm_num
  · constructor
    · exact div_nonneg (by linarith) (by linarith)
    · exact (div_le_one (by linarith)).mpr (by linarith)
  · norm_num

/-- The double-sided evaluator never leaves `[0, 1]`, for any parameters. -/
theorem dens_double_range (z1 z2 z4 z r : ℚ) :
    0 ≤ dens_func_double z1 z2 z4 z r ∧ dens_func_double z1 z2 z4 z r ≤ 1 := by
  simp only [dens_func_double]
  split_ifs with hA hB hC
  · norm_num
  · norm_num
  · constructor
    · exact div_nonneg (by linarith) (by linarith)
    · exact (div_le_one (by linarith)).mpr (by linarith)
  · norm_num

/-- Below the ramp the single-sided evaluator is zero. -/
theorem dens_single_before (s L z r : ℚ) (h : z < s) : dens_func_single s L z r = 0 := by
  simp only [dens_func_single]
  rw [if_pos h]

/-- At or above the ramp end the single-sided evaluator is one. -/
theorem dens_single_after (s L z r : ℚ) (hL : 0 ≤ L) (h : s + L ≤ z) :
    dens_func_single s L z r = 1 := by
  simp only [dens_func_single]
  rw [if_neg (by linarith), if_neg (by linarith)]

/-- Outside `[z1, z4]` the double-sided evaluator is zero. -/
theorem dens_double_outside (z1 z2 z4 z r : ℚ) (h14 : z1 ≤ z4) (h : z < z1 ∨ z4 < z) :
    dens_func_double z1 z2 z4 z r = 0 := by
  simp only [dens_func_double]
  split_ifs with hA hB hC <;> first | rfl | (exfalso; rcases h with h | h <;> linarith)

/-- The single-sided evaluator is monotone on the closed ramp interval. -/
theorem dens_single_mono (s L z z' r : ℚ) (hL : 0 < L)
    (h1 : s ≤ z) (h2 : z ≤ z') (h3 : z' ≤ s + L) :
    dens_func_single s L z r ≤ dens_func_single s L z' r := by
  rw [dens_single_interp s L z r hL h1 (by linarith),
      dens_single_interp s L z' r hL (by linarith) h3]
  gcongr

/-- The double-sided evaluator is monotone on the closed rising-ramp
interval. -/
theorem dens_double_mono (z1 z2 z4 z z' r : ℚ) (h12 : z1 < z2) (h24 : z2 ≤ z4)
    (h1 : z1 ≤ z) (h2 : z ≤ z') (h3 : z' ≤ z2) :
    dens_func_double z1 z2 z4 z r ≤ dens_func_double z1 z2 z4 z' r := by
  rw [dens_double_interp z1 z2 z4 z r h12 h24 h1 (by linarith),
      dens_double_interp z1 z2 z4 z' r h12 h24 (by linarith) h3]
  gcongr
  linarith

/-- On the closed rising segment the full double-sided profile is the
linear interpolation from 0 at `z1` to 1 at `z2`. -/
theorem dens_full_rise (z1 z2 z3 z4 z r : ℚ) (h12 : z1 < z2) (h23 : z2 ≤ z3) (h34 : z3 < z4)
    (h1 : z1 ≤ z) (h2 : z ≤ z2) :
    dens_func_full z1 z2 z3 z4 z r = (z - z1) / (z2 - z1) := by
  simp only [dens_func_full]
  split_ifs with hA hB hC hD
  · linarith
  · linarith
  · linarith
  · rfl
  · have hz : z = z2 := le_antisymm h2 (not_lt.mp hD)
    subst hz
    exact (div_self (ne_of_gt (by linarith))).symm

/-- On the closed plateau segment the full double-sided profile is 1. -/
theorem dens_full_plateau (z1 z2 z3 z4 z r : ℚ) (h12 : z1 < z2) (h34 : z3 < z4)
    (h2 : z2 ≤ z) (h3 : z ≤ z3) :
    dens_func_full z1 z2 z3 z4 z r = 1 := by
  simp only [dens_func_full]
  rw [if_neg (by linarith), if_neg (by linarith), if_neg (by linarith), if_neg (by linarith)]

/-- On the closed falling segment the full double-sided profile is the
linear interpolation from 1 at `z3` to 0 at `z4`. -/
theorem dens_full_fall (z1 z2 z3 z4 z r : ℚ) (h12 : z1 < z2) (h23 : z2 ≤ z3) (h34 : z3 < z4)
    (h3 : z3 ≤ z) (h4 : z ≤ z4) :
    dens_func_full z1 z2 z3 z4 z r = (z4 - z) / (z4 - z3) := by
  simp only [dens_func_full]
  split_ifs with hA hB hC hD
  · linarith
  · linarith
  · rfl
  · linarith
  · have hz : z = z3 := le_antisymm (not_lt.mp hC) h3
    subst hz
    exact (div_self (ne_of_gt (by linarith))).symm

/-- Outside `[z1, z4]` the full double-sided profile is zero. -/
theorem dens_full_outside (z1 z2 z3 z4 z r : ℚ) (h14 : z1 ≤ z4) (h : z < z1 ∨ z4 < z) :
    dens_func_full z1 z2 z3 z4 z r = 0 := by
  simp only [dens_func_full]
  split_ifs with hA hB hC hD <;> first | rfl | (exfalso; rcases h with h | h <;> linarith)

/-- Pushing the fall breakpoint past every position of interest disables
the fall segment: below `z3` the full profile coincides with the
single-sided evaluator (ramp start `z1`, ramp length `z2 - z1`) — a
configuration choice, not a code change. -/
theorem dens_full_degenerate (z1 z2 z3 z4 z r : ℚ) (h34 : z3 ≤ z4) (h : z ≤ z3) :
    dens_func_full z1 z2 z3 z4 z r = dens_func_single z1 (z2 - z1) z r := by
  simp only [dens_func_full, dens_func_single]
  have e : z1 + (z2 - z1) = z2 := by ring
  rw [e, if_neg (by linarith : ¬z > z4), if_neg (by linarith : ¬z > z3)]

/-- Claim C4, counterexample: the single-sided profile of lwfa_script.py is
not zero beyond `ramp_start + ramp_length`: at `z = 400e-6`, which lies
beyond the ramp end `375e-6`, the density is 1, not 0. -/
theorem C4_counterexample :
    lwfa_ramp_start + lwfa_ramp_length < 400e-6 ∧
    lwfa_dens_func 400e-6 0 ≠ 0 ∧
    lwfa_dens_func 400e-6 0 = 1 := by
  norm_num [lwfa_dens_func, dens_func_single, lwfa_ramp_start, lwfa_ramp_length]

/-- Claim C4 (amended): the double-sided profile is zero outside its
outermost breakpoints `[z1, z4]`, independent of r; the single-sided
profile is zero below `ramp_start`, but at or above
`ramp_start + ramp_length` it equals 1, not 0 (it has no upper cutoff). -/
theorem C4_outside_zero (z r : ℚ) :
    (z < calder_z1 ∨ calder_z4 < z → calder_dens_func z r = 0) ∧
    (z < lwfa_ramp_start → lwfa_dens_func z r = 0) ∧
    (lwfa_ramp_start + lwfa_ramp_length ≤ z → lwfa_dens_func z r = 1) := by
  refine ⟨fun h => ?_, fun h => ?_, fun h => ?_⟩
  · exact dens_double_outside _ _ _ _ _ (by norm_num [calder_z1, calder_z4]) h
  · exact dens_single_before _ _ _ _ h
  · exact dens_single_after _ _ _ _ (by norm_num [lwfa_ramp_length]) h

/-- Witness for C4 at concrete positions. -/
theorem C4_witness :
    calder_dens_func (-1e-6) 5e-6 = 0 ∧
    calder_dens_func 2000e-6 5e-6 = 0 ∧
    lwfa_dens_func (-1e-6) 5e-6 = 0 ∧
    lwfa_dens_func 1 5e-6 = 1 :=
  ⟨(C4_outside_zero (-1e-6) 5e-6).1 (Or.inl (by norm_num [calder_z1])),
   (C4_outside_zero 2000e-6 5e-6).1 (Or.inr (by norm_num [calder_z4])),
   (C4_outside_zero (-1e-6) 5e-6).2.1 (by norm_num [lwfa_ramp_start]),
   (C4_outside_zero 1 5e-6).2.2 (by norm_num [lwfa_ramp_start, lwfa_ramp_length])⟩

/-- Claim C5: inside the rising ramp segment both profiles agree exactly
with the linear interpolation between the segment endpoints, are
monotonically non-decreasing in z there, and a z exactly at a breakpoint
evaluates to the ramp's boundary value (0 at the start, 1 at the end). -/
theorem C5_rising_ramp (z z' r : ℚ) :
    (lwfa_ramp_start ≤ z → z ≤ lwfa_ramp_start + lwfa_ramp_length →
      lwfa_dens_func z r = (z - lwfa_ramp_start) / lwfa_ramp_length) ∧
    (lwfa_ramp_start ≤ z → z ≤ z' → z' ≤ lwfa_ramp_start + lwfa_ramp_length →
      lwfa_dens_func z r ≤ lwfa_dens_func z' r) ∧
    lwfa_dens_func lwfa_ramp_start r = 0 ∧
    lwfa_dens_func (lwfa_ramp_start + lwfa_ramp_length) r = 1 ∧
    (calder_z1 ≤ z → z ≤ calder_z2 →
      calder_dens_func z r = (z - calder_z1) / (calder_z2 - calder_z1)) ∧
    (calder_z1 ≤ z → z ≤ z' → z' ≤ calder_z2 →
      calder_dens_func z r ≤ calder_dens_func z' r) ∧
    calder_dens_func calder_z1 r = 0 ∧
    calder_dens_func calder_z2 r = 1 := by
  have hL : (0 : ℚ) < lwfa_ramp_length := by norm_num [lwfa_ramp_length]
  have h12 : calder_z1 < calder_z2 := by norm_num [calder_z1, calder_z2]
  have h24 : calder_z2 ≤ calder_z4 := by norm_num [calder_z2, calder_z4]
  refine ⟨fun h1 h2 => dens_single_interp _ _ _ _ hL h1 h2,
          fun h1 h2 h3 => dens_single_mono _ _ _ _ _ hL h1 h2 h3,
          ?_, ?_,
          fun h1 h2 => dens_double_interp _ _ _ _ _ h12 h24 h1 h2,
          fun h1 h2 h3 => dens_double_mono _ _ _ _ _ _ h12 h24 h1 h2 h3,
          ?_, ?_⟩
  · simp only [lwfa_dens_func]
    rw [dens_single_interp _ _ _ _ hL le_rfl (by linarith)]
    simp
  · exact dens_single_after _ _ _ _ hL.le le_rfl
  · simp only [calder_dens_func]
    rw [dens_double_interp _ _ _ _ _ h12 h24 le_rfl h12.le]
    simp
  · simp only [calder_dens_func]
    rw [dens_double_interp _ _ _ _ _ h12 h24 h12.le le_rfl]
    exact div_self (by norm_num [calder_z1, calder_z2])

/-- Witness for C5 at concrete positions inside the rising ramps. -/
theorem C5_witness :
    lwfa_dens_func (3 / 16000) 0 = ((3 / 16000 : ℚ) - lwfa_ramp_start) / lwfa_ramp_length ∧
    lwfa_dens_func (3 / 16000) 0 ≤ lwfa_dens_func (3 / 8000) 0 ∧
    calder_dens_func (13 / 400000) 0 = ((13 / 400000 : ℚ) - calder_z1) / (calder_z2 - calder_z1) ∧
    calder_dens_func (13 / 400000) 0 ≤ calder_dens_func (13 / 200000) 0 :=
  ⟨(C5_rising_ramp (3 / 16000) (3 / 8000) 0).1
      (by norm_num [lwfa_ramp_start]) (by norm_num [lwfa_ramp_start, lwfa_ramp_length]),
   (C5_rising_ramp (3 / 16000) (3 / 8000) 0).2.1
      (by norm_num [lwfa_ramp_start]) (by norm_num)
      (by norm_num [lwfa_ramp_start, lwfa_ramp_length]),
   (C5_rising_ramp (13 / 400000) (13 / 200000) 0).2.2.2.2.1
      (by norm_num [calder_z1]) (by norm_num [calder_z2]),
   (C5_rising_ramp (13 / 400000) (13 / 200000) 0).2.2.2.2.2.1
      (by norm_num [calder_z1]) (by norm_num) (by norm_num [calder_z2])⟩

/-- Claim C6: the full double-sided profile (all four breakpoints
configured, `z1 < z2 ≤ z3 < z4`) rises linearly from 0 at `z1` to 1 at
`z2`, is flat at 1 on `[z2, z3]`, falls linearly from 1 at `z3` to 0 at
`z4`, is zero outside `[z1, z4]`, and degenerates to the single-sided
evaluator below `z3` — disabling the fall is a configuration choice
(push `z3` past the region of interest), not a separate code path. -/
theorem C6_double_profile (z1 z2 z3 z4 z w r : ℚ)
    (h12 : z1 < z2) (h23 : z2 ≤ z3) (h34 : z3 < z4) :
    (z1 ≤ z → z ≤ z2 → dens_func_full z1 z2 z3 z4 z r = (z - z1) / (z2 - z1)) ∧
    (z2 ≤ z → z ≤ z3 → dens_func_full z1 z2 z3 z4 z r = 1) ∧
    (z3 ≤ z → z ≤ z4 → dens_func_full z1 z2 z3 z4 z r = (z4 - z) / (z4 - z3)) ∧
    (z < z1 ∨ z4 < z → dens_func_full z1 z2 z3 z4 z r = 0) ∧
    (w ≤ z3 → dens_func_full z1 z2 z3 z4 w r = dens_func_single z1 (z2 - z1) w r) :=
  ⟨fun h1 h2 => dens_full_rise _ _ _ _ _ _ h12 h23 h34 h1 h2,
   fun h2 h3 => dens_full_plateau _ _ _ _ _ _ h12 h34 h2 h3,
   fun h3 h4 => dens_full_fall _ _ _ _ _ _ h12 h23 h34 h3 h4,
   fun h => dens_full_outside _ _ _ _ _ _ (by linarith) h,
   fun h => dens_full_degenerate _ _ _ _ _ _ (le_of_lt h34) h⟩

/-- Witness for C6 on the breakpoints `0 < 1 ≤ 2 < 4` at sample positions
in every segment. -/
theorem C6_witness :
    dens_func_full 0 1 2 4 (1/2) 0 = ((1/2 : ℚ) - 0) / (1 - 0) ∧
    dens_func_full 0 1 2 4 (3/2) 0 = 1 ∧
    dens_func_full 0 1 2 4 3 0 = ((4 : ℚ) - 3) / (4 - 2) ∧
    dens_func_full 0 1 2 4 5 0 = 0 ∧
    dens_func_full 0 1 2 4 (1/2) 0 = dens_func_single 0 (1 - 0) (1/2) 0 :=
  ⟨(C6_double_profile 0 1 2 4 (1/2) 0 0 (by norm_num) (by norm_num) (by norm_num)).1
      (by norm_num) (by norm_num),
   (C6_double_profile 0 1 2 4 (3/2) 0 0 (by norm_num) (by norm_num) (by norm_num)).2.1
      (by norm_num) (by norm_num),
   (C6_double_profile 0 1 2 4 3 0 0 (by norm_num) (by norm_num) (by norm_num)).2.2.1
      (by norm_num) (by norm_num),
   (C6_double_profile 0 1 2 4 5 0 0 (by norm_num) (by norm_num) (by norm_num)).2.2.2.1
      (Or.inr (by norm_num)),
   (C6_double_profile 0 1 2 4 0 (1/2) 0 (by norm_num) (by norm_num) (by norm_num)).2.2.2.2
      (by norm_num)⟩

/-- Claim C10, counterexample: a zero-length ramp does not take the
evaluators outside `[0, 1]` and produces no non-finite output: the
suppression masks override the division's result, leaving the degenerate
step profile with values exactly 0 or 1. -/
theorem C10_counterexample :
    dens_func_single 0 0 (-1) 0 = 0 ∧
    dens_func_single 0 0 0 0 = 1 ∧
    dens_func_single 0 0 2 0 = 1 ∧
    dens_func_double 0 0 5 2 0 = 1 := by
  norm_num [dens_func_single, dens_func_double]

/-- Claim C10 (amended): the evaluators divide by the ramp length with no
guard and raise no configuration error, but for every parameter choice —
including zero or negative ramp lengths, not only under `ramp_length > 0`
— every output lies in `[0, 1]`: the masks applied after the division
override its out-of-range values. -/
theorem C10_range (ramp_start ramp_length z1 z2 z4 z r : ℚ) :
    0 ≤ dens_func_single ramp_start ramp_length z r ∧
    dens_func_single ramp_start ramp_length z r ≤ 1 ∧
    0 ≤ dens_func_double z1 z2 z4 z r ∧
    dens_func_double z1 z2 z4 z r ≤ 1 :=
  ⟨(dens_single_range _ _ _ _).1, (dens_single_range _ _ _ _).2,
   (dens_double_range _ _ _ _ _).1, (dens_double_range _ _ _ _ _).2⟩

/-! ### Lemmas for the mode combination and the staircase expansion -/

/-- One loop iteration preserves nothing longer than the shorter operand. -/
theorem modeStep_length (acc : List ℚ) (g : List (ℚ × ℚ)) :
    (modeStep acc g).length = min acc.length g.length := by
  simp [modeStep]

/-- Element-wise description of one mode-combination loop iteration. -/
theorem modeStep_getD (acc : List ℚ) (g : List (ℚ × ℚ)) (i : ℕ)
    (h1 : i < acc.length) (h2 : i < g.length) :
    (modeStep acc g).getD i 0 = acc.getD i 0 + 2 * (g.getD i (0, 0)).1 := by
  induction acc generalizing g i with
  | nil => simp at h1
  | cons a acc ih =>
    cases g with
    | nil => simp at h2
    | cons x g =>
      cases i with
      | zero => simp [modeStep]
      | succ i =>
        simp only [modeStep, List.zipWith_cons_cons, List.getD_cons_succ]
        exact ih g i (by simpa using h1) (by simpa using h2)

/-- Taking real parts commutes with indexing. -/
theorem getD_map_fst (g : List (ℚ × ℚ)) (i : ℕ) (h : i < g.length) :
    (g.map Prod.fst).getD i 0 = (g.getD i (0, 0)).1 := by
  induction g generalizing i with
  | nil => simp at h
  | cons x g ih =>
    cases i with
    | zero => simp
    | succ i =>
      simp only [List.map_cons, List.getD_cons_succ]
      exact ih i (by simpa using h)

/-- Element-wise description of the whole mode-combination loop: the fold
adds twice the real part of every remaining mode to the accumulator. -/
theorem foldl_modeStep_getD (rest : List (List (ℚ × ℚ))) (acc : List ℚ)
    (hlen : ∀ g ∈ rest, g.length = acc.length) (i : ℕ) (hi : i < acc.length) :
    (rest.foldl modeStep acc).getD i 0 =
      acc.getD i 0 + 2 * ((rest.map (fun g => (g.getD i (0, 0)).1)).sum) := by
  induction rest generalizing acc with
  | nil => simp
  | cons g rest ih =>
    have hg : g.length = acc.length := hlen g (List.mem_cons_self g rest)
    have hstep : (modeStep acc g).length = acc.length := by
      rw [modeStep_length, hg, min_self]
    have hlen' : ∀ g' ∈ rest, g'.length = (modeStep acc g).length := by
      intro g' hg'
      rw [hstep]
      exact hlen g' (List.mem_cons_of_mem g hg')
    have hrec := ih (modeStep acc g) hlen' (hstep ▸ hi)
    simp only [List.foldl_cons, List.map_cons, List.sum_cons]
    rw [hrec, modeStep_getD acc g i hi (hg ▸ hi)]
    ring

/-- Claim C7: the 2D field slice combines azimuthal modes as the real part
of mode 0 plus `2 ×` the real part of every mode of index ≥ 1, uniformly;
on mode-0 real parts `[1, 1]` and mode-1 real parts `[2, 2]` the combined
array is `[5, 5]`. -/
theorem C7_mode_combination (g0 : List (ℚ × ℚ)) (rest : List (List (ℚ × ℚ)))
    (hlen : ∀ g ∈ rest, g.length = g0.length) (i : ℕ) (hi : i < g0.length) :
    (combineModes (g0 :: rest)).getD i 0 =
      (g0.getD i (0, 0)).1 + 2 * ((rest.map (fun g => (g.getD i (0, 0)).1)).sum) ∧
    combineModes [[(1, 0), (1, 0)], [(2, 0), (2, 0)]] = [5, 5] := by
  constructor
  · simp only [combineModes]
    rw [foldl_modeStep_getD rest (g0.map Prod.fst) (by simpa using hlen) i (by simpa using hi)]
    rw [getD_map_fst g0 i hi]
  · norm_num [combineModes, modeStep]

/-- Witness for C7 on the two-mode example from the spec. -/
theorem C7_witness :
    (combineModes [[(1, 0), (1, 0)], [(2, 0), (2, 0)]]).getD 0 0 =
      (([((1 : ℚ), (0 : ℚ)), (1, 0)]).getD 0 (0, 0)).1 +
        2 * (([[((2 : ℚ), (0 : ℚ)), (2, 0)]].map (fun g => (g.getD 0 (0, 0)).1)).sum) :=
  (C7_mode_combination [(1, 0), (1, 0)] [[(2, 0), (2, 0)]]
      (by intro g hg; simp at hg; simp [hg]) 0 (by norm_num)).1

/-- Unfolding equation of the staircase x-sequence on two or more edges. -/
theorem staircase_x_cons (a b : ℚ) (l : List ℚ) :
    staircase_x (a :: b :: l) = a :: b :: staircase_x (b :: l) := by
  simp [staircase_x, List.dropLast]

/-- Unfolding equation of the staircase y-sequence. -/
theorem staircase_y_cons (cnt : ℚ) (l : List ℚ) :
    staircase_y (cnt :: l) = cnt :: cnt :: staircase_y l := by
  simp [staircase_y]

/-- The staircase x-sequence has two entries per bin. -/
theorem staircase_x_length (l : List ℚ) :
    (staircase_x l).length = 2 * (l.length - 1) := by
  induction l with
  | nil => simp [staircase_x]
  | cons a l ih =>
    cases l with
    | nil => simp [staircase_x]
    | cons b l' =>
      rw [staircase_x_cons]
      simp at ih ⊢
      omega

/-- The staircase y-sequence has two entries per count. -/
theorem staircase_y_length (l : List ℚ) :
    (staircase_y l).length = 2 * l.length := by
  induction l with
  | nil => simp [staircase_y]
  | cons cnt l ih =>
    rw [staircase_y_cons]
    simp [ih]
    omega

/-- Bin `i` of the staircase x-sequence holds the left and right edge of
bin `i`, in order. -/
theorem staircase_x_getD (edges : List ℚ) (i : ℕ) (h : i + 1 < edges.length) :
    (staircase_x edges).getD (2 * i) 0 = edges.getD i 0 ∧
    (staircase_x edges).getD (2 * i + 1) 0 = edges.getD (i + 1) 0 := by
  induction edges generalizing i with
  | nil => simp at h
  | cons a l ih =>
    cases l with
    | nil => simp at h
    | cons b l' =>
      rw [staircase_x_cons]
      cases i with
      | zero => simp
      | succ i =>
        have h' : i + 1 < (b :: l').length := by simpa using h
        constructor
        · have e1 : 2 * (i + 1) = 2 * i + 1 + 1 := by ring
          rw [e1, List.getD_cons_succ, List.getD_cons_succ, List.getD_cons_succ]
          exact (ih i h').1
        · have e2 : 2 * (i + 1) + 1 = 2 * i + 1 + 1 + 1 := by ring
          rw [e2, List.getD_cons_succ, List.getD_cons_succ, List.getD_cons_succ]
          exact (ih i h').2

/-- Bin `i` of the staircase y-sequence repeats count `i` twice. -/
theorem staircase_y_getD (counts : List ℚ) (i : ℕ) (h : i < counts.length) :
    (staircase_y counts).getD (2 * i) 0 = counts.getD i 0 ∧
    (staircase_y counts).getD (2 * i + 1) 0 = counts.getD i 0 := by
  induction counts generalizing i with
  | nil => simp at h
  | cons cnt l ih =>
    rw [staircase_y_cons]
    cases i with
    | zero => simp
    | succ i =>
      have h' : i < l.length := by simpa using h
      constructor
      · have e1 : 2 * (i + 1) = 2 * i + 1 + 1 := by ring
        rw [e1, List.getD_cons_succ, List.getD_cons_succ, List.getD_cons_succ]
        exact (ih i h').1
      · have e2 : 2 * (i + 1) + 1 = 2 * i + 1 + 1 + 1 := by ring
        rw [e2, List.getD_cons_succ, List.getD_cons_succ, List.getD_cons_succ]
        exact (ih i h').2

/-- Claim C9: for a histogram of `n` bins (`n + 1` edges, `n` counts) the
staircase expansion produces x- and y-sequences of length `2n` in which
bin `i` contributes the pairs `(edges[i], counts[i])` and
`(edges[i+1], counts[i])` in order — no edge or count is invented or
dropped. -/
theorem C9_staircase (edges counts : List ℚ) (n : ℕ)
    (he : edges.length = n + 1) (hc : counts.length = n) :
    (staircase_x edges).length = 2 * n ∧
    (staircase_y counts).length = 2 * n ∧
    ∀ i < n,
      (staircase_x edges).getD (2 * i) 0 = edges.getD i 0 ∧
      (staircase_x edges).getD (2 * i + 1) 0 = edges.getD (i + 1) 0 ∧
      (staircase_y counts).getD (2 * i) 0 = counts.getD i 0 ∧
      (staircase_y counts).getD (2 * i + 1) 0 = counts.getD i 0 := by
  refine ⟨by rw [staircase_x_length, he]; omega, by rw [staircase_y_length, hc], ?_⟩
  intro i hi
  have hx := staircase_x_getD edges i (by omega)
  have hy := staircase_y_getD counts i (by omega)
  exact ⟨hx.1, hx.2, hy.1, hy.2⟩

/-- Witness for C9 on the two-bin histogram with edges `[0, 1, 2]` and
counts `[5, 7]`. -/
theorem C9_witness :
    (staircase_x [0, 1, 2]).length = 2 * 2 ∧
    (staircase_x [0, 1, 2]).getD 1 0 = ([(0 : ℚ), 1, 2]).getD 1 0 ∧
    (staircase_y [5, 7]).getD 2 0 = ([(5 : ℚ), 7]).getD 1 0 :=
  ⟨(C9_staircase [0, 1, 2] [5, 7] 2 rfl rfl).1,
   ((C9_staircase [0, 1, 2] [5, 7] 2 rfl rfl).2.2 0 (by norm_num)).2.1,
   ((C9_staircase [0, 1, 2] [5, 7] 2 rfl rfl).2.2 1 (by norm_num)).2.2.1⟩
